import Mathlib

/-!
Verification of the trading-bot repository: a shallow embedding of the momentum
scoring, portfolio reconciliation, order execution, orchestration and list
chunking code of tradingBot.py and getData.py, together with theorems settling
the specification claims about them.

Conventions: ticker symbols are String, dates are natural-number day codes,
share quantities are Int (Python int), close prices are exact rationals, and
the real-valued momentum arithmetic is modelled over the reals. A pandas
DataFrame is modelled as a list of typed rows in row order; a Python function
that can return None returns an Option; NaN cells that can actually arise in
the modelled pipelines are modelled with Option fields.
-/

/-- Close-price row of the historical data table of tradingBot.py (columns
symbol, date, close), as produced by get_hist_data. -/
structure PriceRow where
  symbol : String
  date : ℕ
  close : ℚ
deriving DecidableEq

/-- Row of the current-portfolio DataFrame df_pf built in trade from the broker
positions, projected to the columns symbol and qty that the reconciliation
functions consume. -/
structure PfRow where
  symbol : String
  qty : ℤ
deriving DecidableEq

/-- Row of the buy list returned by Momentum.get_buy_list, projected to the
columns symbol, qty and close that diff_stocks and get_buy_data consume. -/
structure BuyRow where
  symbol : String
  qty : ℤ
  close : ℚ
deriving DecidableEq

/-- Row of the DataFrame returned by get_sell_data: a close-price row
left-merged with the portfolio qty; qty is none when the left merge finds no
portfolio row, which pandas renders as a NaN cell. -/
structure SellRow where
  symbol : String
  close : ℚ
  qty : Option ℤ
deriving DecidableEq

/-- Row of the finalized sell order returned by diff_stocks; qty is none when
the pandas pipeline would leave NaN in the qty column. -/
structure SellFinalRow where
  symbol : String
  qty : Option ℤ
  close : ℚ
deriving DecidableEq

/-- Row of the finalized buy order returned by get_buy_data. -/
structure BuyFinalRow where
  symbol : String
  qty : ℤ
deriving DecidableEq

/-- Row of the inner or left merge of the buy list with the portfolio on
symbol, used inside diff_stocks and get_buy_data: qtyX is the buy-list qty,
close the buy-list close, qtyY the portfolio qty (0 after fillna in
get_buy_data). -/
structure MergeRow where
  symbol : String
  qtyX : ℤ
  close : ℚ
  qtyY : ℤ
deriving DecidableEq

/-- Embedding of get_sell_data, tradingBot.py lines 226 to 261: restrict the
price table to the as-of date and to the symbols of sell_list; if any row
remains, left-merge with the portfolio on symbol to recover the held qty,
otherwise the Python function returns None. -/
def get_sell_data (df : List PriceRow) (df_pf : List PfRow) (sell_list : List String)
    (date : ℕ) : Option (List SellRow) :=
  let df_sell_price := (df.filter (fun r => r.date == date)).filter
    (fun r => sell_list.contains r.symbol)
  if 0 < df_sell_price.length then
    some ((df_sell_price.map (fun r =>
      let ms := df_pf.filter (fun p => p.symbol == r.symbol)
      if ms.isEmpty then [(⟨r.symbol, r.close, none⟩ : SellRow)]
      else ms.map (fun p => (⟨r.symbol, r.close, some p.qty⟩ : SellRow)))).flatten)
  else none

/-- Pandas inner merge of the buy list with the portfolio on symbol: one output
row per matching pair, in left-table order. -/
def innerMergeBuyPf (df_buy : List BuyRow) (df_pf : List PfRow) : List MergeRow :=
  (df_buy.map (fun b =>
    (df_pf.filter (fun p => p.symbol == b.symbol)).map
      (fun p => (⟨b.symbol, b.qty, b.close, p.qty⟩ : MergeRow)))).flatten

/-- Embedding of diff_stocks, tradingBot.py lines 264 to 330: inner-merge the
buy list with the portfolio; if the merge is non-empty, keep the rows whose
share_amt_change, buy qty minus portfolio qty, is negative; if any remain,
concatenate the get_sell_data rows (when present) with those reductions, fill
the NaN share_amt_change of the former with their qty, take absolute values
and rename to qty; with no reductions the function returns None, and with an
empty merge it returns the buy list projected to symbol, qty and close. -/
def diff_stocks (df_sell : Option (List SellRow)) (df_pf : List PfRow)
    (df_buy : List BuyRow) : Option (List SellFinalRow) :=
  let df_stock_diff := innerMergeBuyPf df_buy df_pf
  if 0 < df_stock_diff.length then
    let sale := df_stock_diff.filter (fun r => decide (r.qtyX - r.qtyY < 0))
    if 0 < sale.length then
      match df_sell with
      | some rows =>
          some (rows.map
              (fun r => (⟨r.symbol, r.qty.map (fun q => |q|), r.close⟩ : SellFinalRow)) ++
            sale.map (fun r => (⟨r.symbol, some |r.qtyX - r.qtyY|, r.close⟩ : SellFinalRow)))
      | none =>
          some (sale.map (fun r => (⟨r.symbol, some |r.qtyX - r.qtyY|, r.close⟩ : SellFinalRow)))
    else none
  else some (df_buy.map (fun b => (⟨b.symbol, some b.qty, b.close⟩ : SellFinalRow)))

/-- Embedding of get_buy_data, tradingBot.py lines 333 to 359: left merge of
the buy list with the portfolio on symbol, NaN portfolio qty filled with 0,
qty_new set to the buy qty minus the portfolio qty, keeping only strictly
positive rows; returns None when no row remains. -/
def get_buy_data (df_pf : List PfRow) (df_buy : List BuyRow) : Option (List BuyFinalRow) :=
  let merged := (df_buy.map (fun b =>
    let ms := df_pf.filter (fun p => p.symbol == b.symbol)
    if ms.isEmpty then [(⟨b.symbol, b.qty, b.close, 0⟩ : MergeRow)]
    else ms.map (fun p => (⟨b.symbol, b.qty, b.close, p.qty⟩ : MergeRow)))).flatten
  let pos := merged.filter (fun r => decide (0 < r.qtyX - r.qtyY))
  if 0 < pos.length then
    some (pos.map (fun r => (⟨r.symbol, r.qtyX - r.qtyY⟩ : BuyFinalRow)))
  else none

/-- The sell list computed in trade, tradingBot.py line 468: the set difference
of the portfolio symbols and the buy-list symbols. Python builds an unordered
set; downstream the list is consumed only through membership tests, so order
and duplication are immaterial. -/
def sell_list_of (df_pf : List PfRow) (df_buy : List BuyRow) : List String :=
  (df_pf.map (fun p => p.symbol)).filter
    (fun s => !((df_buy.map (fun b => b.symbol)).contains s))

/-- The reconciliation pipeline of trade, tradingBot.py lines 468 to 472 and
492: the finalized sell order obtained from get_sell_data and diff_stocks, and
the finalized buy order obtained from get_buy_data. -/
def reconcile (df : List PriceRow) (date : ℕ) (df_pf : List PfRow) (df_buy : List BuyRow) :
    Option (List SellFinalRow) × Option (List BuyFinalRow) :=
  (diff_stocks (get_sell_data df df_pf (sell_list_of df_pf df_buy) date) df_pf df_buy,
   get_buy_data df_pf df_buy)

/-- Total quantity the portfolio holds in a symbol. -/
def held_qty (df_pf : List PfRow) (s : String) : ℤ :=
  ((df_pf.filter (fun p => p.symbol == s)).map (fun p => p.qty)).sum

/-- Applying the reconciled deltas to the current holdings of one symbol, the
round-trip operation the specification describes: subtract the SELL quantities
for the symbol and add the BUY quantities. A None order set contributes
nothing, since trade submits nothing for it, and a NaN qty cell contributes
nothing. -/
def apply_deltas (df_pf : List PfRow) (sells : Option (List SellFinalRow))
    (buys : Option (List BuyFinalRow)) (s : String) : ℤ :=
  held_qty df_pf s
    - (((sells.getD []).filter (fun r => r.symbol == s)).map (fun r => (r.qty).getD 0)).sum
    + (((buys.getD []).filter (fun r => r.symbol == s)).map (fun r => r.qty)).sum

/-- Lexicographic comparison of character lists by code point, the ordering
pandas uses when sorting a column of ticker strings. -/
def charListLe : List Char → List Char → Bool
  | [], _ => true
  | _ :: _, [] => false
  | a :: as, b :: bs =>
      if a.toNat < b.toNat then true
      else if b.toNat < a.toNat then false
      else charListLe as bs

/-- Symbol ordering used by the sort in Momentum.get_buy_list. -/
def symbolLe (s t : String) : Bool := charListLe s.data t.data

/-- Insert a price row into a list sorted by symbol, keeping the sort stable. -/
def insertBySymbol (r : PriceRow) : List PriceRow → List PriceRow
  | [] => [r]
  | x :: xs => if symbolLe r.symbol x.symbol then r :: x :: xs else x :: insertBySymbol r xs

/-- Sorting of price rows by symbol ascending, modelling sort_values on the
symbol column in Momentum.get_buy_list. -/
def sortBySymbol : List PriceRow → List PriceRow
  | [] => []
  | x :: xs => insertBySymbol x (sortBySymbol xs)

/-- Row of the buy list assembled at the end of Momentum.get_buy_list: the
price row of a symbol on the date together with the qty column the code
assigns. -/
structure BuyListRow where
  symbol : String
  close : ℚ
  qty : ℤ
deriving DecidableEq

/-- Embedding of the allocation-pairing tail of Momentum.get_buy_list,
tradingBot.py lines 134 to 153. The external allocator output is the
association list allocation in its iteration order; the code reads it into the
parallel lists symbol_list and num_shares_list, filters the price table to
those symbols on the date, sorts the resulting rows by symbol, assigns
num_shares_list to the qty column positionally (pandas raises ValueError on a
length mismatch, modelled as none) and finally drops rows whose qty is 0. -/
def get_buy_list_alloc (df : List PriceRow) (date : ℕ)
    (allocation : List (String × ℤ)) : Option (List BuyListRow) :=
  let symbol_list := allocation.map (fun a => a.1)
  let num_shares_list := allocation.map (fun a => a.2)
  let rows := (df.filter (fun r => symbol_list.contains r.symbol)).filter
    (fun r => r.date == date)
  let sorted := sortBySymbol rows
  if sorted.length == num_shares_list.length then
    some (((sorted.zip num_shares_list).map
      (fun p => (⟨p.1.symbol, p.1.close, p.2⟩ : BuyListRow))).filter
      (fun r => !(r.qty == 0)))
  else none

/-- The side string passed to submit_order for sell orders. -/
def sideSell : String := "sell"

/-- The side string passed to submit_order for buy orders. -/
def sideBuy : String := "buy"

/-- A submit_order call as the broker observes it: symbol, qty and side. -/
structure Order where
  symbol : String
  qty : ℤ
  side : String
deriving DecidableEq

instance : Inhabited Order := ⟨⟨"", 0, ""⟩⟩

/-- One order-submission loop of trade inside its try block, tradingBot.py
lines 479 to 489 and 499 to 509: the orders are submitted in sequence, and the
broker answering false models submit_order raising, which aborts the loop (the
surrounding except swallows the exception). The result is the sequence of
submit_order calls the broker received, the raising call included. -/
def submit_loop (broker : String → ℤ → String → Bool) (side : String) :
    List (String × ℤ) → List Order
  | [] => []
  | o :: rest =>
      if broker o.1 o.2 side then ⟨o.1, o.2, side⟩ :: submit_loop broker side rest
      else [⟨o.1, o.2, side⟩]

/-- The sell block of trade, tradingBot.py lines 473 to 489: nothing is
submitted when the sell DataFrame is None or when DEBUG is on. -/
def sell_block (broker : String → ℤ → String → Bool) (debug : Bool)
    (df_sell : Option (List (String × ℤ))) : List Order :=
  match df_sell with
  | none => []
  | some rows => if debug then [] else submit_loop broker sideSell rows

/-- The buy block of trade, tradingBot.py lines 493 to 509. -/
def buy_block (broker : String → ℤ → String → Bool) (debug : Bool)
    (df_buy : Option (List (String × ℤ))) : List Order :=
  match df_buy with
  | none => []
  | some rows => if debug then [] else submit_loop broker sideBuy rows

/-- The order-execution tail of trade, tradingBot.py lines 471 to 509: the sell
block runs to completion before the buy block starts. The result is the full
sequence of submit_order calls of the run. -/
def trade_exec (broker : String → ℤ → String → Bool) (debug : Bool)
    (df_sell : Option (List (String × ℤ))) (df_buy : Option (List (String × ℤ))) :
    List Order :=
  sell_block broker debug df_sell ++ buy_block broker debug df_buy

/-- A mock broker whose submit_order raises exactly on symbol AA; false models
the raised exception. -/
def brokerFailFirst : String → ℤ → String → Bool := fun s _ _ => !(s == "AA")

/-- Outcome of calling a Python function: a normal return, a raised ValueError,
or another raised exception, each carrying its message text. -/
inductive PyResult (α : Type) where
  | ok : α → PyResult α
  | valueError : String → PyResult α
  | exn : String → PyResult α
deriving DecidableEq

/-- The DEBUG global of tradingBot.py, line 16. -/
def DEBUG : Bool := true

/-- The success status string of main. -/
def statusComplete : String := "Trading complete."

/-- The markets-closed status string of main. -/
def statusClosed : String := "No trade: markets closed."

/-- The string main returns from its ValueError handler. -/
def valueErrorMsg (m : String) : String := "ValueError: " ++ m

/-- The string main returns from its generic exception handler. -/
def exceptionMsg (m : String) : String := "Exception: " ++ m

/-- Embedding of main, tradingBot.py lines 517 to 540, parametrized by the
DEBUG flag and by the outcomes of the check_open and trade calls. A Python
function that falls off its end returns None, modelled as none; a returned
status string is some. In debug mode trade is called unconditionally and
check_open is never consulted; either call raising lands in the matching
except clause. -/
def tradingBot_main (debug : Bool) (check_open : PyResult Bool) (trade : PyResult Unit) :
    Option String :=
  if debug then
    match trade with
    | .ok _ => none
    | .valueError m => some (valueErrorMsg m)
    | .exn m => some (exceptionMsg m)
  else
    match check_open with
    | .ok true =>
        match trade with
        | .ok _ => some statusComplete
        | .valueError m => some (valueErrorMsg m)
        | .exn m => some (exceptionMsg m)
    | .ok false => some statusClosed
    | .valueError m => some (valueErrorMsg m)
    | .exn m => some (exceptionMsg m)

/-- Successive slices of size m + 1 of a list, the generator expression inside
chunks of getData.py: slice i to i plus step for i stepping through the list. -/
def chunksAux {α : Type _} (m : ℕ) : List α → List (List α)
  | [] => []
  | a :: rest => ((a :: rest).take (m + 1)) :: chunksAux m ((a :: rest).drop (m + 1))
termination_by l => l.length
decreasing_by simp only [List.length_drop, List.length_cons]; omega

/-- Embedding of chunks, getData.py lines 81 to 95: the chunk size n is clamped
below by 1, then the list is cut into consecutive slices of that size. -/
def chunks {α : Type _} (full_list : List α) (n : ℤ) : List (List α) :=
  chunksAux ((max 1 n).toNat - 1) full_list

/-- Index values 0, 1, 2 and so on used as the regression x axis, np.arange in
Momentum.__score. -/
def xIdx : ℕ → ℝ := fun i => (i : ℝ)

/-- Elementwise natural log of the price window, np.log in Momentum.__score,
read through getD so the series is a function of the index. -/
noncomputable def logSeries (ts : List ℝ) : ℕ → ℝ := fun i => Real.log (ts.getD i 0)

/-- Mean of the first n values of a series. -/
noncomputable def seriesMean (n : ℕ) (f : ℕ → ℝ) : ℝ := (∑ i ∈ Finset.range n, f i) / n

/-- Centered product sum of two series over the first n indices, the building
block of the least-squares slope and of the correlation coefficient that
scipy.stats.linregress computes. -/
noncomputable def centeredDot (n : ℕ) (f g : ℕ → ℝ) : ℝ :=
  ∑ i ∈ Finset.range n, (f i - seriesMean n f) * (g i - seriesMean n g)

/-- Embedding of Momentum.__score, tradingBot.py lines 69 to 84, over exact
reals: the least-squares slope of log price against the index is annualized as
exp slope to the 252nd power, minus 1, times 100, and multiplied by the square
of the correlation coefficient r. Division by zero is 0 in Lean, matching the
r equals 0 convention scipy applies to a degenerate fit. -/
noncomputable def momentum_score (ts : List ℝ) : ℝ :=
  ((Real.exp (centeredDot ts.length xIdx (logSeries ts) /
      centeredDot ts.length xIdx xIdx)) ^ (252 : ℕ) - 1) * 100 *
    ((centeredDot ts.length xIdx (logSeries ts)) ^ 2 /
      (centeredDot ts.length xIdx xIdx *
        centeredDot ts.length (logSeries ts) (logSeries ts)))

/-- Helper: flattening the chunk slices returns the original list. -/
theorem chunksAux_flatten {α : Type _} (m : ℕ) :
    ∀ (k : ℕ) (l : List α), l.length ≤ k → (chunksAux m l).flatten = l := by
  intro k
  induction k with
  | zero =>
      intro l hl
      have h0 : l = [] := List.eq_nil_of_length_eq_zero (Nat.le_zero.mp hl)
      subst h0
      simp [chunksAux]
  | succ k ih =>
      intro l hl
      cases l with
      | nil => simp [chunksAux]
      | cons a rest =>
          rw [chunksAux]
          rw [List.flatten_cons]
          rw [ih ((a :: rest).drop (m + 1))
            (by simp only [List.length_drop, List.length_cons] at hl ⊢; omega)]
          exact List.take_append_drop (m + 1) (a :: rest)

/-- Helper: every chunk slice has at most m plus 1 elements. -/
theorem chunksAux_bound {α : Type _} (m : ℕ) :
    ∀ (k : ℕ) (l : List α) (c : List α), l.length ≤ k → c ∈ chunksAux m l →
      c.length ≤ m + 1 := by
  intro k
  induction k with
  | zero =>
      intro l c hl hc
      have h0 : l = [] := List.eq_nil_of_length_eq_zero (Nat.le_zero.mp hl)
      subst h0
      simp [chunksAux] at hc
  | succ k ih =>
      intro l c hl hc
      cases l with
      | nil => simp [chunksAux] at hc
      | cons a rest =>
          rw [chunksAux] at hc
          rcases List.mem_cons.mp hc with h | h
          · subst h
            rw [List.length_take]
            exact Nat.min_le_left _ _
          · exact ih ((a :: rest).drop (m + 1)) c
              (by simp only [List.length_drop, List.length_cons] at hl ⊢; omega) h

/-- Claim C10: for every list l and every integer n, concatenating the sublists
returned by chunks l n in order yields exactly l, and every returned sublist
has at most max 1 n elements, so a non-positive n is treated as chunk size 1
rather than failing. -/
theorem chunks_flatten_and_bounded {α : Type _} (l : List α) (n : ℤ) :
    (chunks l n).flatten = l ∧
      (chunks l n).Forall (fun c => c.length ≤ (max 1 n).toNat) := by
  have hstep : (max 1 n).toNat - 1 + 1 = (max 1 n).toNat := by
    have h1 : (1 : ℤ) ≤ max 1 n := le_max_left 1 n
    omega
  constructor
  · exact chunksAux_flatten _ l.length l le_rfl
  · rw [List.forall_iff_forall_mem]
    intro c hc
    have := chunksAux_bound ((max 1 n).toNat - 1) l.length l c le_rfl hc
    omega

/-- Helper: every order the submission loop produces carries the side the loop
was called with. -/
theorem submit_loop_side (broker : String → ℤ → String → Bool) (side : String)
    (l : List (String × ℤ)) : ∀ o ∈ submit_loop broker side l, o.side = side := by
  induction l with
  | nil => intro o ho; simp [submit_loop] at ho
  | cons a rest ih =>
      intro o ho
      rw [submit_loop] at ho
      by_cases hb : broker a.1 a.2 side
      · rw [if_pos hb] at ho
        rcases List.mem_cons.mp ho with h | h
        · subst h; rfl
        · exact ih o h
      · rw [if_neg hb] at ho
        rcases List.mem_cons.mp ho with h | h
        · subst h; rfl
        · simp at h

/-- Helper: every order the sell block submits is sell-side. -/
theorem sell_block_side (broker : String → ℤ → String → Bool) (debug : Bool)
    (ds : Option (List (String × ℤ))) :
    ∀ o ∈ sell_block broker debug ds, o.side = sideSell := by
  intro o ho
  cases ds with
  | none => simp [sell_block] at ho
  | some rows =>
      rw [sell_block] at ho
      by_cases hd : debug
      · rw [if_pos hd] at ho; simp at ho
      · rw [if_neg hd] at ho; exact submit_loop_side broker sideSell rows o ho

/-- Helper: every order the buy block submits is buy-side. -/
theorem buy_block_side (broker : String → ℤ → String → Bool) (debug : Bool)
    (db : Option (List (String × ℤ))) :
    ∀ o ∈ buy_block broker debug db, o.side = sideBuy := by
  intro o ho
  cases db with
  | none => simp [buy_block] at ho
  | some rows =>
      rw [buy_block] at ho
      by_cases hd : debug
      · rw [if_pos hd] at ho; simp at ho
      · rw [if_neg hd] at ho; exact submit_loop_side broker sideBuy rows o ho

/-- Claim C6: in every run of trade, the sequence of submit_order calls never
contains a buy-side call followed later by a sell-side call: all sell
submissions are dispatched before any buy submission. -/
theorem trade_sells_before_buys (broker : String → ℤ → String → Bool) (debug : Bool)
    (ds db : Option (List (String × ℤ))) (i j : ℕ) (hij : i < j)
    (hj : j < (trade_exec broker debug ds db).length)
    (hbuy : ((trade_exec broker debug ds db).getD i default).side = sideBuy) :
    ((trade_exec broker debug ds db).getD j default).side ≠ sideSell := by
  have hS := sell_block_side broker debug ds
  have hB := buy_block_side broker debug db
  have htr : trade_exec broker debug ds db =
      sell_block broker debug ds ++ buy_block broker debug db := rfl
  rw [htr] at hj hbuy ⊢
  have hiS : (sell_block broker debug ds).length ≤ i := by
    by_contra hlt
    push_neg at hlt
    rw [List.getD_append _ _ _ _ hlt] at hbuy
    have hmem : (sell_block broker debug ds).getD i default ∈ sell_block broker debug ds := by
      rw [List.getD_eq_getElem _ _ hlt]
      exact List.getElem_mem hlt
    have := hS _ hmem
    rw [hbuy] at this
    exact absurd this (by decide)
  have hjS : (sell_block broker debug ds).length ≤ j := le_trans hiS (le_of_lt hij)
  rw [List.getD_append_right _ _ _ _ hjS]
  have hjB : j - (sell_block broker debug ds).length < (buy_block broker debug db).length := by
    rw [List.length_append] at hj
    omega
  have hmem : (buy_block broker debug db).getD
      (j - (sell_block broker debug ds).length) default ∈ buy_block broker debug db := by
    rw [List.getD_eq_getElem _ _ hjB]
    exact List.getElem_mem hjB
  rw [hB _ hmem]
  decide

/-- Witness for claim C6: a concrete run with one sell order and two buy
orders, checked at positions 1 and 2 of the call trace. -/
theorem trade_sells_before_buys_witness :
    (1 : ℕ) < 2 ∧
      ((trade_exec (fun _ _ _ => true) false (some [(("AA" : String), (1 : ℤ))])
        (some [(("BB" : String), (2 : ℤ)), (("CC" : String), 3)])).getD 2 default).side ≠
        sideSell :=
  ⟨by decide,
    trade_sells_before_buys (fun _ _ _ => true) false (some [(("AA" : String), (1 : ℤ))])
      (some [(("BB" : String), (2 : ℤ)), (("CC" : String), 3)]) 1 2 (by decide) (by decide)
      (by decide)⟩

/-- Helper: the submission loop of one batch stops at the first raising order;
the orders before it and the raising order itself are submitted, the rest of
the batch is not. -/
theorem submit_loop_abort (broker : String → ℤ → String → Bool) (side : String)
    (pre : List (String × ℤ)) (bad : String × ℤ) (post : List (String × ℤ))
    (hpre : ∀ o ∈ pre, broker o.1 o.2 side = true)
    (hbad : broker bad.1 bad.2 side = false) :
    submit_loop broker side (pre ++ bad :: post) =
      pre.map (fun o => (⟨o.1, o.2, side⟩ : Order)) ++ [⟨bad.1, bad.2, side⟩] := by
  induction pre with
  | nil =>
      rw [List.nil_append, submit_loop, hbad]
      simp
  | cons a rest ih =>
      rw [List.cons_append, submit_loop, hpre a (List.mem_cons_self a rest)]
      rw [if_pos rfl]
      rw [ih (fun o ho => hpre o (List.mem_cons_of_mem a ho))]
      simp

/-- Claim C5 as amended: when one sell order raises, the remaining orders of
the sell batch are not submitted, because the whole loop sits in a single try
block; the exception is swallowed and the buy batch still runs. Nothing is
collected or reported. -/
theorem trade_exec_batch_abort (broker : String → ℤ → String → Bool)
    (pre : List (String × ℤ)) (bad : String × ℤ) (post buys : List (String × ℤ))
    (hpre : ∀ o ∈ pre, broker o.1 o.2 sideSell = true)
    (hbad : broker bad.1 bad.2 sideSell = false) :
    trade_exec broker false (some (pre ++ bad :: post)) (some buys) =
      (pre.map (fun o => (⟨o.1, o.2, sideSell⟩ : Order)) ++ [⟨bad.1, bad.2, sideSell⟩]) ++
        submit_loop broker sideBuy buys := by
  have h : trade_exec broker false (some (pre ++ bad :: post)) (some buys) =
      submit_loop broker sideSell (pre ++ bad :: post) ++ submit_loop broker sideBuy buys := rfl
  rw [h, submit_loop_abort broker sideSell pre bad post hpre hbad]

/-- Witness for claim C5 as amended: with a broker raising on symbol AA, the
sell batch PP, AA, QQ aborts after AA and the buy batch BB still runs. -/
theorem trade_exec_batch_abort_witness :
    brokerFailFirst ("AA") 1 sideSell = false ∧
      trade_exec brokerFailFirst false
          (some [(("PP" : String), (1 : ℤ)), (("AA" : String), 2), (("QQ" : String), 3)])
          (some [(("BB" : String), (4 : ℤ))]) =
        [⟨"PP", 1, sideSell⟩, ⟨"AA", 2, sideSell⟩, ⟨"BB", 4, sideBuy⟩] := by
  refine ⟨by decide, ?_⟩
  have h := trade_exec_batch_abort brokerFailFirst [(("PP" : String), (1 : ℤ))]
    (("AA" : String), (2 : ℤ)) [(("QQ" : String), (3 : ℤ))] [(("BB" : String), (4 : ℤ))]
    (by decide) (by decide)
  exact h.trans (by decide)

/-- Counterexample to claim C5 as stated: with a broker that raises on the
first order of a two-order sell batch, the second order is never submitted,
refuting the claim that every remaining order in the batch is still
submitted. -/
theorem submit_loop_abort_cex :
    submit_loop brokerFailFirst sideSell [(("AA" : String), (1 : ℤ)), (("BB" : String), 2)] =
        [(⟨"AA", 1, sideSell⟩ : Order)] ∧
      (⟨"BB", 2, sideSell⟩ : Order) ∉
        submit_loop brokerFailFirst sideSell [(("AA" : String), (1 : ℤ)), (("BB" : String), 2)] := by
  decide

/-- Helper: every row of a get_sell_data result has a close-price row in the
price table on the as-of date with the same symbol. -/
theorem get_sell_data_symbols (df : List PriceRow) (df_pf : List PfRow)
    (sell_list : List String) (date : ℕ) (rows : List SellRow)
    (h : get_sell_data df df_pf sell_list date = some rows) :
    ∀ r ∈ rows, ∃ pr ∈ df, pr.symbol = r.symbol ∧ pr.date = date := by
  intro r hr
  rw [get_sell_data] at h
  by_cases hc : 0 < ((df.filter (fun x => x.date == date)).filter
      (fun x => sell_list.contains x.symbol)).length
  · rw [if_pos hc] at h
    have hrows := (Option.some.injEq _ _).mp h
    rw [← hrows] at hr
    rcases List.mem_flatten.mp hr with ⟨l, hl, hrl⟩
    rcases List.mem_map.mp hl with ⟨pr, hpr, hfl⟩
    have hprdf : pr ∈ df ∧ pr.date = date := by
      have h1 := List.mem_filter.mp hpr
      have h2 := List.mem_filter.mp h1.1
      exact ⟨h2.1, by have := h2.2; simpa using this⟩
    refine ⟨pr, hprdf.1, ?_, hprdf.2⟩
    rw [← hfl] at hrl
    by_cases he : (df_pf.filter (fun p => p.symbol == pr.symbol)).isEmpty
    · rw [if_pos he] at hrl
      rcases List.mem_cons.mp hrl with h3 | h3
      · rw [h3]
      · simp at h3
    · rw [if_neg he] at hrl
      rcases List.mem_map.mp hrl with ⟨p, _, hp⟩
      rw [← hp]
  · rw [if_neg hc] at h
    exact absurd h (by simp)

/-- Helper: every row of the inner merge takes its symbol from a buy-list
row. -/
theorem innerMergeBuyPf_symbols (df_buy : List BuyRow) (df_pf : List PfRow) :
    ∀ x ∈ innerMergeBuyPf df_buy df_pf, ∃ b ∈ df_buy, b.symbol = x.symbol := by
  intro x hx
  rw [innerMergeBuyPf] at hx
  rcases List.mem_flatten.mp hx with ⟨l, hl, hxl⟩
  rcases List.mem_map.mp hl with ⟨b, hb, hfl⟩
  rw [← hfl] at hxl
  rcases List.mem_map.mp hxl with ⟨p, _, hp⟩
  exact ⟨b, hb, by rw [← hp]⟩

/-- Helper: every row of a diff_stocks result takes its symbol either from the
get_sell_data rows or from a buy-list row. -/
theorem diff_stocks_symbols (ds : Option (List SellRow)) (df_pf : List PfRow)
    (df_buy : List BuyRow) (rows : List SellFinalRow)
    (h : diff_stocks ds df_pf df_buy = some rows) :
    ∀ r ∈ rows, (∃ sr ∈ ds.getD [], sr.symbol = r.symbol) ∨
      (∃ b ∈ df_buy, b.symbol = r.symbol) := by
  intro r hr
  rw [diff_stocks] at h
  by_cases hc : 0 < (innerMergeBuyPf df_buy df_pf).length
  · rw [if_pos hc] at h
    by_cases hs : 0 < ((innerMergeBuyPf df_buy df_pf).filter
        (fun x => decide (x.qtyX - x.qtyY < 0))).length
    · rw [if_pos hs] at h
      cases ds with
      | some prev =>
          have hrows := (Option.some.injEq _ _).mp h
          rw [← hrows] at hr
          rcases List.mem_append.mp hr with h1 | h1
          · rcases List.mem_map.mp h1 with ⟨sr, hsr, hfl⟩
            exact Or.inl ⟨sr, hsr, by rw [← hfl]⟩
          · rcases List.mem_map.mp h1 with ⟨x, hx, hfl⟩
            have hxm := List.mem_filter.mp hx
            rcases innerMergeBuyPf_symbols df_buy df_pf x hxm.1 with ⟨b, hb, hbx⟩
            exact Or.inr ⟨b, hb, by rw [hbx, ← hfl]⟩
      | none =>
          have hrows := (Option.some.injEq _ _).mp h
          rw [← hrows] at hr
          rcases List.mem_map.mp hr with ⟨x, hx, hfl⟩
          have hxm := List.mem_filter.mp hx
          rcases innerMergeBuyPf_symbols df_buy df_pf x hxm.1 with ⟨b, hb, hbx⟩
          exact Or.inr ⟨b, hb, by rw [hbx, ← hfl]⟩
    · rw [if_neg hs] at h
      exact absurd h (by simp)
  · rw [if_neg hc] at h
    have hrows := (Option.some.injEq _ _).mp h
    rw [← hrows] at hr
    rcases List.mem_map.mp hr with ⟨b, hb, hfl⟩
    exact Or.inr ⟨b, hb, by rw [← hfl]⟩

/-- Claim C4 as amended: a full-exit candidate, a symbol held in the portfolio
and absent from the buy list, that has no close-price row for the as-of date
is silently omitted from the final sell order; no error of any kind is raised,
since every function of the pipeline is total and get_sell_data simply filters
the symbol away. -/
theorem reconcile_drops_unpriced_exit (df : List PriceRow) (date : ℕ) (df_pf : List PfRow)
    (df_buy : List BuyRow) (s : String)
    (hprice : ∀ r ∈ df, r.symbol = s → r.date ≠ date)
    (hbuy : ∀ b ∈ df_buy, b.symbol ≠ s) (rows : List SellFinalRow)
    (hr : (reconcile df date df_pf df_buy).1 = some rows) :
    s ∉ rows.map (fun r => r.symbol) := by
  intro hmem
  rcases List.mem_map.mp hmem with ⟨r, hrrows, hrs⟩
  have h := diff_stocks_symbols (get_sell_data df df_pf (sell_list_of df_pf df_buy) date)
    df_pf df_buy rows hr r hrrows
  rcases h with ⟨sr, hsr, hsrs⟩ | ⟨b, hb, hbs⟩
  · cases hgs : get_sell_data df df_pf (sell_list_of df_pf df_buy) date with
    | none => rw [hgs] at hsr; simp at hsr
    | some rows0 =>
        rw [hgs] at hsr
        simp only [Option.getD_some] at hsr
        rcases get_sell_data_symbols df df_pf (sell_list_of df_pf df_buy) date rows0 hgs
          sr hsr with ⟨pr, hpr, hprsym, hprdate⟩
        exact hprice pr hpr (by rw [hprsym, hsrs, hrs]) hprdate
  · exact hbuy b hb (by rw [hbs, hrs])

/-- Witness for claim C4 as amended: the portfolio holds DD and FF, the buy
list reduces FF, and the price table has no row for DD on the as-of date; the
finalized sell order mentions only FF and the exit of DD is dropped. -/
theorem reconcile_drops_unpriced_exit_witness :
    ("DD" : String) ∉
      (List.map (fun r => r.symbol) [(⟨"FF", some 8, 20⟩ : SellFinalRow)]) :=
  reconcile_drops_unpriced_exit [(⟨"FF", 5, 20⟩ : PriceRow)] 5
    [(⟨"DD", 7⟩ : PfRow), ⟨"FF", 10⟩] [(⟨"FF", 2, 20⟩ : BuyRow)] ("DD")
    (by decide) (by decide) [(⟨"FF", some 8, 20⟩ : SellFinalRow)] (by decide)

/-- Counterexample to claim C4 as stated: the full-exit candidate DD has no
close-price row for the as-of date, yet reconciliation completes normally with
a sell order that omits DD, instead of failing with a MissingPriceData hard
error; the code has no such error path at all. -/
theorem reconcile_unpriced_exit_cex :
    (reconcile [(⟨"FF", 5, 20⟩ : PriceRow)] 5 [(⟨"DD", 7⟩ : PfRow), ⟨"FF", 10⟩]
        [(⟨"FF", 2, 20⟩ : BuyRow)]).1 = some [(⟨"FF", some 8, 20⟩ : SellFinalRow)] ∧
      ("DD" : String) ∉
        ((reconcile [(⟨"FF", 5, 20⟩ : PriceRow)] 5 [(⟨"DD", 7⟩ : PfRow), ⟨"FF", 10⟩]
          [(⟨"FF", 2, 20⟩ : BuyRow)]).1.getD []).map (fun r => r.symbol) := by
  decide

/-- Claim C1 is refuted by this evaluation: with the portfolio holding only ZZ
and the buy list holding only CC (no overlap), diff_stocks takes its
empty-merge branch and returns the buy list itself as the finalized sell
order, so CC appears in both the SELL and the BUY set (and the full exit of ZZ
is dropped); the two sets are not disjoint as the claim states. -/
theorem reconcile_disjointness_violation :
    reconcile [(⟨"CC", 1, 50⟩ : PriceRow), ⟨"ZZ", 1, 7⟩] 1 [(⟨"ZZ", 3⟩ : PfRow)]
        [(⟨"CC", 8, 50⟩ : BuyRow)] =
      (some [(⟨"CC", some 8, 50⟩ : SellFinalRow)], some [(⟨"CC", 8⟩ : BuyFinalRow)]) ∧
    ("CC" : String) ∈
      ((reconcile [(⟨"CC", 1, 50⟩ : PriceRow), ⟨"ZZ", 1, 7⟩] 1 [(⟨"ZZ", 3⟩ : PfRow)]
        [(⟨"CC", 8, 50⟩ : BuyRow)]).1.getD []).map (fun r => r.symbol) ∧
    ("CC" : String) ∈
      ((reconcile [(⟨"CC", 1, 50⟩ : PriceRow), ⟨"ZZ", 1, 7⟩] 1 [(⟨"ZZ", 3⟩ : PfRow)]
        [(⟨"CC", 8, 50⟩ : BuyRow)]).2.getD []).map (fun r => r.symbol) := by
  decide

/-- Claim C2 is refuted by this evaluation: the portfolio holds AA and BB, the
target keeps BB unchanged and drops AA, and a price for AA is available; the
inner merge is non-empty but no overlapping symbol decreased, so diff_stocks
returns None and get_buy_data returns None: no order is generated, and
applying the deltas leaves the exited symbol AA at 10 rather than driving it
to 0 as the round-trip claim states. -/
theorem reconcile_roundtrip_violation :
    reconcile [(⟨"AA", 1, 30⟩ : PriceRow), ⟨"BB", 1, 20⟩] 1
        [(⟨"AA", 10⟩ : PfRow), ⟨"BB", 5⟩] [(⟨"BB", 5, 20⟩ : BuyRow)] = (none, none) ∧
      apply_deltas [(⟨"AA", 10⟩ : PfRow), ⟨"BB", 5⟩]
        (reconcile [(⟨"AA", 1, 30⟩ : PriceRow), ⟨"BB", 1, 20⟩] 1
          [(⟨"AA", 10⟩ : PfRow), ⟨"BB", 5⟩] [(⟨"BB", 5, 20⟩ : BuyRow)]).1
        (reconcile [(⟨"AA", 1, 30⟩ : PriceRow), ⟨"BB", 1, 20⟩] 1
          [(⟨"AA", 10⟩ : PfRow), ⟨"BB", 5⟩] [(⟨"BB", 5, 20⟩ : BuyRow)]).2 ("AA") = 10 ∧
      ¬ apply_deltas [(⟨"AA", 10⟩ : PfRow), ⟨"BB", 5⟩]
        (reconcile [(⟨"AA", 1, 30⟩ : PriceRow), ⟨"BB", 1, 20⟩] 1
          [(⟨"AA", 10⟩ : PfRow), ⟨"BB", 5⟩] [(⟨"BB", 5, 20⟩ : BuyRow)]).1
        (reconcile [(⟨"AA", 1, 30⟩ : PriceRow), ⟨"BB", 1, 20⟩] 1
          [(⟨"AA", 10⟩ : PfRow), ⟨"BB", 5⟩] [(⟨"BB", 5, 20⟩ : BuyRow)]).2 ("AA") = 0 := by
  decide

/-- Claim C3 is refuted by this evaluation: with current holding AA at 10, an
empty target and a close price available for AA on the as-of date, the code
produces an empty finalized sell order and no buy order, instead of the
claimed SELL of AA at 10: the empty buy-list merge routes diff_stocks to its
empty-merge branch, discarding the get_sell_data rows. -/
theorem reconcile_full_exit_dropped :
    reconcile [(⟨"AA", 1, 30⟩ : PriceRow)] 1 [(⟨"AA", 10⟩ : PfRow)] [] = (some [], none) ∧
      ("AA" : String) ∉
        ((reconcile [(⟨"AA", 1, 30⟩ : PriceRow)] 1
          [(⟨"AA", 10⟩ : PfRow)] []).1.getD []).map (fun r => r.symbol) := by
  decide

/-- Claim C7 is refuted by this evaluation: the allocator returns BB at 5 and
then AA at 3 in that iteration order, both symbols have price rows on the
date, and get_buy_list sorts the rows by symbol before assigning the share
list positionally: the AA row receives qty 5 although the allocator assigned
AA only 3, pairing each symbol with the other symbol's share count. -/
theorem get_buy_list_alloc_mispairs :
    get_buy_list_alloc [(⟨"AA", 1, 10⟩ : PriceRow), ⟨"BB", 1, 20⟩] 1
        [(("BB" : String), (5 : ℤ)), (("AA" : String), 3)] =
      some [(⟨"AA", 10, 5⟩ : BuyListRow), ⟨"BB", 20, 3⟩] ∧
    List.lookup ("AA") [(("BB" : String), (5 : ℤ)), (("AA" : String), 3)] = some 3 ∧
    (5 : ℤ) ≠ 3 := by
  decide

/-- Claim C9 is refuted by this evaluation: with the DEBUG global of the source
set to True, a run in which trade completes without raising falls off the end
of main and returns None, not one of the three status strings; with DEBUG off
the same outcome returns the Trading complete status. -/
theorem main_debug_returns_none :
    DEBUG = true ∧
      tradingBot_main DEBUG (PyResult.ok true) (PyResult.ok ()) = none ∧
      tradingBot_main false (PyResult.ok true) (PyResult.ok ()) = some statusComplete := by
  decide

/-- Helper: the mean of a series shifted by a constant on its support is the
constant plus the mean. -/
theorem seriesMean_shift (n : ℕ) (hn : n ≠ 0) (g g2 : ℕ → ℝ) (a : ℝ)
    (h : ∀ i < n, g2 i = a + g i) : seriesMean n g2 = a + seriesMean n g := by
  simp only [seriesMean]
  rw [Finset.sum_congr rfl (fun i hi => h i (Finset.mem_range.mp hi))]
  rw [Finset.sum_add_distrib, Finset.sum_const, Finset.card_range, nsmul_eq_mul]
  have hn0 : (n : ℝ) ≠ 0 := Nat.cast_ne_zero.mpr hn
  rw [add_div, mul_div_cancel_left₀ a hn0]

/-- Helper: the centered product sum is symmetric in its two series. -/
theorem centeredDot_comm (n : ℕ) (f g : ℕ → ℝ) : centeredDot n f g = centeredDot n g f := by
  simp only [centeredDot]
  exact Finset.sum_congr rfl (fun i _ => mul_comm _ _)

/-- Helper: the centered product sum is unchanged when the second series is
shifted by a constant on the summation support. -/
theorem centeredDot_congr_shift (n : ℕ) (f g g2 : ℕ → ℝ) (a : ℝ)
    (h : ∀ i < n, g2 i = a + g i) : centeredDot n f g2 = centeredDot n f g := by
  rcases Nat.eq_zero_or_pos n with h0 | hp
  · subst h0; simp [centeredDot]
  · have hm := seriesMean_shift n (Nat.pos_iff_ne_zero.mp hp) g g2 a h
    simp only [centeredDot]
    apply Finset.sum_congr rfl
    intro i hi
    rw [h i (Finset.mem_range.mp hi), hm]
    ring

/-- Claim C8: the momentum score of Momentum.__score is invariant under a
uniform positive rescaling of all prices in the window: multiplying each price
by c shifts every log price by log c, which changes neither the least-squares
slope nor the coefficient of determination. -/
theorem momentum_score_scale_invariant (ts : List ℝ) (c : ℝ) (hc : 0 < c)
    (hpos : ∀ p ∈ ts, 0 < p) :
    momentum_score (ts.map (fun p => c * p)) = momentum_score ts := by
  have hlen : (ts.map (fun p => c * p)).length = ts.length := List.length_map ts _
  have hshift : ∀ i < ts.length,
      logSeries (ts.map (fun p => c * p)) i = Real.log c + logSeries ts i := by
    intro i hi
    have hi2 : i < (ts.map (fun p => c * p)).length := by rw [hlen]; exact hi
    have h1 : (ts.map (fun p => c * p)).getD i 0 = c * ts.getD i 0 := by
      rw [List.getD_eq_getElem _ _ hi2, List.getD_eq_getElem _ _ hi, List.getElem_map]
    have hmem : ts.getD i 0 ∈ ts := by
      rw [List.getD_eq_getElem _ _ hi]
      exact List.getElem_mem hi
    have hp := hpos _ hmem
    simp only [logSeries]
    rw [h1, Real.log_mul (ne_of_gt hc) (ne_of_gt hp)]
  have hxy : centeredDot ts.length xIdx (logSeries (ts.map (fun p => c * p))) =
      centeredDot ts.length xIdx (logSeries ts) :=
    centeredDot_congr_shift ts.length xIdx (logSeries ts) _ (Real.log c) hshift
  have hyy : centeredDot ts.length (logSeries (ts.map (fun p => c * p)))
        (logSeries (ts.map (fun p => c * p))) =
      centeredDot ts.length (logSeries ts) (logSeries ts) := by
    rw [centeredDot_congr_shift ts.length (logSeries (ts.map (fun p => c * p)))
      (logSeries ts) _ (Real.log c) hshift]
    rw [centeredDot_comm]
    exact centeredDot_congr_shift ts.length (logSeries ts) (logSeries ts) _ (Real.log c) hshift
  simp only [momentum_score]
  rw [hlen, hxy, hyy]

/-- Witness for claim C8: doubling the two-point price window 1, 2 leaves the
momentum score unchanged. -/
theorem momentum_score_scale_invariant_witness :
    (0 : ℝ) < 2 ∧
      momentum_score (List.map (fun p => (2 : ℝ) * p) [1, 2]) = momentum_score [1, 2] :=
  ⟨two_pos, momentum_score_scale_invariant [1, 2] 2 two_pos
    (by intro p hp; simp at hp; rcases hp with h | h <;> rw [h] <;> norm_num)⟩
